import Mathlib

/-!
Verification of the pagination-discovery client in `src/client.py`.

The client scans a year's pages concurrently (`fetch_movies_starting_from_page`),
detects the first non-successful page (`min(pageCount)`), re-authenticates and
resumes on a 401 boundary, and sums the per-page movie counts
(`fetch_movies_by_year`).  The embedding below represents one thread-pool pass by
the pages its submission loop submitted together with, for each page, whether its
fetch found the shared `pageCount` list empty (and so performed the real request)
or found it non-empty (and short-circuited).  Every interleaving of the worker
threads is captured by some such schedule.
-/

namespace MovieClient

/-- Response of the server to `GET /api/movies/{year}/{page}`: the HTTP status code
together with the length of the JSON array body (`len(eval(response.text))` in
`src/client.py`), which is the only part of the body the client uses. -/
structure PageResp where
  count : Nat
  status : Nat
deriving DecidableEq

/-- One scanning pass of `fetch_movies_starting_from_page` (src/client.py lines
71-95) is executed by a thread pool: the submission loop submits pages
`start, start+1, ...` while the shared list `pageCount` is empty, and each
submitted fetch, when a worker picks it up, first checks whether `pageCount` is
already non-empty.  A `PassSched` records the observable nondeterminism of one
such pass: `n` is the number of pages the loop submitted before it observed
`pageCount` non-empty, and `ran p` tells whether page `p`'s fetch found
`pageCount` empty at its initial check (and therefore performed a real network
request) or found it non-empty (and returned the sentinel without a request).
Any `(n, ran)` whose submitted range contains at least one really-run failing
page corresponds to a possible interleaving; with a single worker the fetches
execute in submission order, so exactly the pages up to and including the first
failing page run. -/
structure PassSched where
  n : Nat
  ran : Nat → Bool

/-- Pages submitted by the loop in one pass: `start, start+1, ..., start+n-1`. -/
def submittedPages (start n : Nat) : List Nat :=
  (List.range n).map (fun i => start + i)

/-- Embeds `fetch_movies_in_page` (src/client.py lines 49-67).  `alreadyFailed` is
the value of `len(pageCount) > 0` at the initial check; `resp` is the server's
response for this (year, page) under the current bearer token.  Returns the pair
the future yields (movie count, status code) together with a Boolean telling
whether the call appended its page to `pageCount`. -/
def fetch_movies_in_page (alreadyFailed : Bool) (resp : PageResp) : (Nat × Nat) × Bool :=
  if alreadyFailed then ((0, 401), false)
  else if resp.status == 200 then ((resp.count, resp.status), false)
  else ((0, resp.status), true)

/-- The value `futures[p].result()` of page `p`'s future in a pass with responses
`srv` and schedule component `ran`. -/
def futureResult (srv : Nat → PageResp) (ran : Nat → Bool) (p : Nat) : Nat × Nat :=
  (fetch_movies_in_page (!(ran p)) (srv p)).1

/-- The contents of the shared list `pageCount` at the end of a pass: the
submitted pages whose fetch really ran and returned a non-200 status.  The real
list is in completion order; only its emptiness, its membership and its minimum
are ever used, all of which are permutation-invariant, so the canonical page
order is kept here. -/
def passPageCount (srv : Nat → PageResp) (ran : Nat → Bool) (start n : Nat) : List Nat :=
  (submittedPages start n).filter (fun p => (fetch_movies_in_page (!(ran p)) (srv p)).2)

/-- `min(pageCount)` as used on line 86 of src/client.py; `none` when the pass
never terminates (no submitted fetch both ran and failed, so the submission loop
never observes a non-empty `pageCount`). -/
def passBoundary (srv : Nat → PageResp) (ran : Nat → Bool) (start n : Nat) : Option Nat :=
  (passPageCount srv ran start n).min?

/-- The dictionary comprehension on line 83 of src/client.py: submitted pages
whose future carries status 200, each mapped to its `(count, status)` result. -/
def passOutput (srv : Nat → PageResp) (ran : Nat → Bool) (start n : Nat) :
    List (Nat × (Nat × Nat)) :=
  ((submittedPages start n).filter (fun p => (futureResult srv ran p).2 == 200)).map
    (fun p => (p, futureResult srv ran p))

/-- Python's dict union `a | b` as used on line 94 of src/client.py: the keys of
`a` first (with `b`'s value whenever `b` also binds the key), then the keys only
`b` binds. -/
def dictMerge (a b : List (Nat × (Nat × Nat))) : List (Nat × (Nat × Nat)) :=
  a.map (fun e => (e.1, (b.lookup e.1).getD e.2))
    ++ b.filter (fun e => !(a.any (fun e2 => e2.1 == e.1)))

/-- Embeds `fetch_movies_starting_from_page` (src/client.py lines 71-95).
`srv i p` is the server's response for page `p` of the requested year during pass
`i`; the pass index stands for the bearer token in use (pass `i+1` runs under the
token obtained by the re-authentication that ended pass `i`, so a server whose
behaviour depends on the token is modelled by dependence on the pass index).
`sched i` is pass `i`'s schedule.  `fuel` bounds the recursion depth so that the
embedding is total: `none` means the call does not finalize within `fuel` passes
(either the retry recursion is deeper, or some pass's submission loop never
stops); the source imposes no such bound. -/
def fetch_movies_starting_from_page (srv : Nat → Nat → PageResp) (sched : Nat → PassSched) :
    Nat → Nat → Nat → Option (List (Nat × (Nat × Nat)))
  | _, 0, _ => none
  | i, fuel + 1, start =>
    match passBoundary (srv i) (sched i).ran start (sched i).n with
    | none => none
    | some b =>
      if (futureResult (srv i) (sched i).ran b).2 ≠ 401 then
        some (passOutput (srv i) (sched i).ran start (sched i).n)
      else
        match fetch_movies_starting_from_page srv sched (i + 1) fuel
            (if b - 1 < 1 then 1 else b - 1) with
        | none => none
        | some rest =>
          some (dictMerge (passOutput (srv i) (sched i).ran start (sched i).n) rest)

/-- Embeds `fetch_movies_by_year` (src/client.py lines 98-100): run the scan from
page 1 and sum `future.result()[0]` over the values of the returned dictionary. -/
def fetch_movies_by_year (srv : Nat → Nat → PageResp) (sched : Nat → PassSched)
    (fuel : Nat) : Option Nat :=
  (fetch_movies_starting_from_page srv sched 0 fuel 1).map
    (fun mp => (mp.map (fun e => e.2.1)).sum)

/-- One record per pass of a scan: pass index, starting page, number of submitted
pages and the boundary `min(pageCount)` (none when the pass never stops). -/
structure PassRec where
  idx : Nat
  startPage : Nat
  numSubmitted : Nat
  boundary : Option Nat
deriving DecidableEq

/-- Ghost instrumentation of `fetch_movies_starting_from_page`: the list of
passes the scan executes, in order. -/
def scanTrace (srv : Nat → Nat → PageResp) (sched : Nat → PassSched) :
    Nat → Nat → Nat → List PassRec
  | _, 0, _ => []
  | i, fuel + 1, start =>
    match passBoundary (srv i) (sched i).ran start (sched i).n with
    | none => [⟨i, start, (sched i).n, none⟩]
    | some b =>
      if (futureResult (srv i) (sched i).ran b).2 ≠ 401 then
        [⟨i, start, (sched i).n, some b⟩]
      else
        ⟨i, start, (sched i).n, some b⟩ ::
          scanTrace srv sched (i + 1) fuel (if b - 1 < 1 then 1 else b - 1)

/-- The authentication response as the client observes it: the HTTP status code
and `response.json().get('bearer')`. -/
structure AuthResponse where
  status : Nat
  bearer : Option String
deriving DecidableEq

/-- Embeds `authenticate` (src/client.py lines 26-46): read the `bearer` field of
the JSON body, return it when the status code is 200 and `None` otherwise. -/
def authenticate (r : AuthResponse) : Option String :=
  let bearer := r.bearer
  if r.status == 200 then bearer else none

/-- Python truthiness of the bearer value in `main`: `not bearer` is true exactly
for `None` and for the empty string. -/
def pyTruthy : Option String → Bool
  | none => false
  | some s => !(s == "")

/-- Embeds the authentication step of `main` (src/client.py lines 7-12): a falsy
bearer raises `PermissionError` and the run aborts with no retry; otherwise the
run continues with the token. -/
def mainAuthStep (r : AuthResponse) : Except String String :=
  let bearer := authenticate r
  if pyTruthy bearer then Except.ok (bearer.getD "")
  else Except.error "Authentication failed. Username or password incorrect."

/-- Scenario A's dataset (spec section 8): year 1894 has one page with a single
movie; every later page is past the end of the data and answers 404.  The
responses do not depend on the pass index: the token stays valid. -/
def server1894 : Nat → Nat → PageResp := fun _ p => if p = 1 then ⟨1, 200⟩ else ⟨0, 404⟩

/-- The schedule forced by a single worker on `server1894`: fetches run in
submission order, so page 1 runs (and succeeds) and page 2 runs (fails with 404
and stops the submission loop). -/
def schedSeq : Nat → PassSched := fun _ => ⟨2, fun _ => true⟩

/-- A schedule only possible with at least two concurrent workers: page 1's
worker is preempted between dequeuing the task and checking `pageCount`, page 2's
fetch completes (404) and appends first, and page 1 then short-circuits without
ever performing its request. -/
def schedRace : Nat → PassSched := fun _ => ⟨2, fun p => p != 1⟩

/-- Scenario C's dataset (spec section 8): during pass 0 the session is expired
and every page answers 401; after re-authentication (pass index at least 1) page
1 has 14808 movies and page 2 is past the end. -/
def server2020 : Nat → Nat → PageResp := fun i p =>
  if i = 0 then ⟨0, 401⟩ else if p = 1 then ⟨14808, 200⟩ else ⟨0, 404⟩

/-- Single-worker schedules for `server2020`: pass 0 stops at its first fetch
(page 1 answers 401), later passes run two pages each. -/
def sched2020 : Nat → PassSched := fun i =>
  if i = 0 then ⟨1, fun _ => true⟩ else ⟨2, fun _ => true⟩

/-! Basic characterizations of the per-pass data. -/

theorem mem_submittedPages {start n p : Nat} :
    p ∈ submittedPages start n ↔ start ≤ p ∧ p < start + n := by
  simp only [submittedPages, List.mem_map, List.mem_range]
  constructor
  · rintro ⟨i, hi, rfl⟩; omega
  · rintro ⟨h1, h2⟩; exact ⟨p - start, by omega, by omega⟩

theorem nodup_submittedPages (start n : Nat) : (submittedPages start n).Nodup :=
  (List.nodup_range n).map (fun i j h => by omega)

theorem appended_iff {srv : Nat → PageResp} {ran : Nat → Bool} {p : Nat} :
    (fetch_movies_in_page (!(ran p)) (srv p)).2 = true ↔
      ran p = true ∧ (srv p).status ≠ 200 := by
  unfold fetch_movies_in_page
  cases h : ran p <;> by_cases h2 : (srv p).status = 200 <;> simp [h, h2]

theorem futureResult_of_not_ran {srv : Nat → PageResp} {ran : Nat → Bool} {p : Nat}
    (h : ran p = false) : futureResult srv ran p = (0, 401) := by
  simp [futureResult, fetch_movies_in_page, h]

theorem futureResult_of_success {srv : Nat → PageResp} {ran : Nat → Bool} {p : Nat}
    (h : ran p = true) (h2 : (srv p).status = 200) :
    futureResult srv ran p = ((srv p).count, (srv p).status) := by
  simp [futureResult, fetch_movies_in_page, h, h2]

theorem futureResult_of_failure {srv : Nat → PageResp} {ran : Nat → Bool} {p : Nat}
    (h : ran p = true) (h2 : (srv p).status ≠ 200) :
    futureResult srv ran p = (0, (srv p).status) := by
  simp [futureResult, fetch_movies_in_page, h, h2]

theorem mem_passPageCount {srv : Nat → PageResp} {ran : Nat → Bool} {start n p : Nat} :
    p ∈ passPageCount srv ran start n ↔
      p ∈ submittedPages start n ∧ ran p = true ∧ (srv p).status ≠ 200 := by
  simp only [passPageCount, List.mem_filter, appended_iff]

theorem mem_passOutput {srv : Nat → PageResp} {ran : Nat → Bool} {start n : Nat}
    {e : Nat × (Nat × Nat)} :
    e ∈ passOutput srv ran start n ↔
      e.1 ∈ submittedPages start n ∧ ran e.1 = true ∧ (srv e.1).status = 200 ∧
        e.2 = ((srv e.1).count, 200) := by
  simp only [passOutput, List.mem_map, List.mem_filter]
  constructor
  · rintro ⟨p, ⟨hp, hs⟩, rfl⟩
    cases hr : ran p
    · rw [futureResult_of_not_ran hr] at hs
      exact absurd hs (by decide)
    · by_cases h2 : (srv p).status = 200
      · exact ⟨hp, rfl, h2, by rw [futureResult_of_success hr h2, h2]⟩
      · rw [futureResult_of_failure hr h2] at hs
        simp only [beq_iff_eq] at hs
        exact absurd hs h2
  · rintro ⟨h1, h2, h3, h4⟩
    refine ⟨e.1, ⟨h1, ?_⟩, ?_⟩
    · rw [futureResult_of_success h2 h3, h3]
      simp
    · have : futureResult srv ran e.1 = e.2 := by
        rw [futureResult_of_success h2 h3, h3, h4]
      rw [this]

/-- The boundary is a submitted page whose fetch really ran and failed, and it is
the least such page. -/
theorem passBoundary_spec {srv : Nat → PageResp} {ran : Nat → Bool} {start n b : Nat}
    (h : passBoundary srv ran start n = some b) :
    (b ∈ submittedPages start n ∧ ran b = true ∧ (srv b).status ≠ 200) ∧
      ∀ p ∈ submittedPages start n, ran p = true → (srv p).status ≠ 200 → b ≤ p := by
  have h2 := List.min?_eq_some_iff'.1 h
  refine ⟨mem_passPageCount.1 h2.1, fun p hp hr hs => h2.2 p ?_⟩
  exact mem_passPageCount.2 ⟨hp, hr, hs⟩

/-- The minimum of `pageCount` does not depend on the completion order the real
list was appended in. -/
theorem min_eq_of_perm {l m : List Nat} (h : l.Perm m) : l.min? = m.min? := by
  cases hm : m.min? with
  | none =>
    rw [List.min?_eq_none_iff] at hm
    subst hm
    simp only [List.min?_nil, List.min?_eq_none_iff]
    exact h.eq_nil
  | some b =>
    have hb := List.min?_eq_some_iff'.1 hm
    exact List.min?_eq_some_iff'.2 ⟨h.mem_iff.2 hb.1, fun c hc => hb.2 c (h.mem_iff.1 hc)⟩

/-! Properties of the dict union. -/

theorem lookup_mem {k : Nat} {v : Nat × Nat} :
    ∀ {l : List (Nat × (Nat × Nat))}, l.lookup k = some v → (k, v) ∈ l := by
  intro l
  induction l with
  | nil => intro h; simp [List.lookup] at h
  | cons a t ih =>
    obtain ⟨a1, a2⟩ := a
    intro h
    rw [List.lookup] at h
    by_cases hk : k = a1
    · subst hk
      simp only [beq_self_eq_true] at h
      cases h
      exact List.mem_cons_self _ _
    · have hb : (k == a1) = false := by simpa using hk
      rw [hb] at h
      exact List.mem_cons_of_mem _ (ih h)

theorem mem_dictMerge {a b : List (Nat × (Nat × Nat))} {e : Nat × (Nat × Nat)}
    (h : e ∈ dictMerge a b) : e ∈ a ∨ e ∈ b := by
  unfold dictMerge at h
  rcases List.mem_append.1 h with h | h
  · rcases List.mem_map.1 h with ⟨e0, he0, rfl⟩
    cases hl : b.lookup e0.1 with
    | none => left; simpa [hl] using he0
    | some w => right; exact lookup_mem hl
  · exact Or.inr (List.mem_filter.1 h).1

theorem dictMerge_keys (a b : List (Nat × (Nat × Nat))) :
    (dictMerge a b).map Prod.fst =
      a.map Prod.fst
        ++ (b.filter (fun e => !(a.any (fun e2 => e2.1 == e.1)))).map Prod.fst := by
  unfold dictMerge
  rw [List.map_append, List.map_map]
  rfl

theorem nodup_keys_dictMerge {a b : List (Nat × (Nat × Nat))}
    (ha : (a.map Prod.fst).Nodup) (hb : (b.map Prod.fst).Nodup) :
    ((dictMerge a b).map Prod.fst).Nodup := by
  rw [dictMerge_keys, List.nodup_append]
  refine ⟨ha, hb.sublist (List.Sublist.map _ (List.filter_sublist _)), ?_⟩
  intro k hk1 hk2
  rcases List.mem_map.1 hk2 with ⟨e, he, hke⟩
  have hf := (List.mem_filter.1 he).2
  simp only [Bool.not_eq_eq_eq_not, Bool.not_true, List.any_eq_false] at hf
  rcases List.mem_map.1 hk1 with ⟨e2, he2, hk2e⟩
  exact hf e2 he2 (by rw [beq_iff_eq, hk2e, hke])

theorem nodup_keys_passOutput (srv : Nat → PageResp) (ran : Nat → Bool) (start n : Nat) :
    ((passOutput srv ran start n).map Prod.fst).Nodup := by
  unfold passOutput
  rw [List.map_map]
  have h : (Prod.fst ∘ fun p => (p, futureResult srv ran p)) = id := rfl
  rw [h, List.map_id]
  exact (nodup_submittedPages start n).filter _

/-! Invariants of the accumulated scan result, by induction on the fuel. -/

/-- Every entry of a finalized result was obtained by a successful real fetch in
some pass: its stored pair is `(count, 200)` for that pass's response. -/
theorem result_provenance (srv : Nat → Nat → PageResp) (sched : Nat → PassSched) :
    ∀ fuel i start res,
      fetch_movies_starting_from_page srv sched i fuel start = some res →
      ∀ e ∈ res, ∃ j, (srv j e.1).status = 200 ∧ e.2 = ((srv j e.1).count, 200) := by
  intro fuel
  induction fuel with
  | zero =>
    intro i start res h
    simp [fetch_movies_starting_from_page] at h
  | succ fuel ih =>
    intro i start res h e he
    simp only [fetch_movies_starting_from_page] at h
    split at h
    · exact absurd h (by simp)
    · split at h
      · cases h
        rcases mem_passOutput.1 he with ⟨h1, h2, h3, h4⟩
        exact ⟨i, h3, h4⟩
      · split at h
        · exact absurd h (by simp)
        · next rest hrest =>
          cases h
          rcases mem_dictMerge he with hmem | hmem
          · rcases mem_passOutput.1 hmem with ⟨h1, h2, h3, h4⟩
            exact ⟨i, h3, h4⟩
          · exact ih (i + 1) _ rest hrest e hmem

/-- The keys of a finalized result are pairwise distinct. -/
theorem result_keys_nodup (srv : Nat → Nat → PageResp) (sched : Nat → PassSched) :
    ∀ fuel i start res,
      fetch_movies_starting_from_page srv sched i fuel start = some res →
      (res.map Prod.fst).Nodup := by
  intro fuel
  induction fuel with
  | zero =>
    intro i start res h
    simp [fetch_movies_starting_from_page] at h
  | succ fuel ih =>
    intro i start res h
    simp only [fetch_movies_starting_from_page] at h
    split at h
    · exact absurd h (by simp)
    · split at h
      · cases h
        exact nodup_keys_passOutput _ _ _ _
      · split at h
        · exact absurd h (by simp)
        · next rest hrest =>
          cases h
          exact nodup_keys_dictMerge (nodup_keys_passOutput _ _ _ _)
            (ih (i + 1) _ rest hrest)

/-- Every stored entry carries status 200. -/
theorem result_status (srv : Nat → Nat → PageResp) (sched : Nat → PassSched)
    (fuel i start : Nat) (res : List (Nat × (Nat × Nat)))
    (h : fetch_movies_starting_from_page srv sched i fuel start = some res) :
    ∀ e ∈ res, e.2.2 = 200 := by
  intro e he
  rcases result_provenance srv sched fuel i start res h e he with ⟨j, hj, hv⟩
  rw [hv]

/-- Filtering a finalized result down to its Success entries changes nothing. -/
theorem result_filter_success (srv : Nat → Nat → PageResp) (sched : Nat → PassSched)
    (fuel i start : Nat) (res : List (Nat × (Nat × Nat)))
    (h : fetch_movies_starting_from_page srv sched i fuel start = some res) :
    res.filter (fun e => e.2.2 == 200) = res := by
  rw [List.filter_eq_self]
  intro e he
  rw [result_status srv sched fuel i start res h e he]
  rfl

/-! Step equations of the retry state machine. -/

/-- When the boundary's real status is 401 the pass re-authenticates and recurses
from `max 1 (b - 1)`, merging its own output with the retried scan's result. -/
theorem step_retry (srv : Nat → Nat → PageResp) (sched : Nat → PassSched)
    (i fuel start b : Nat)
    (hb : passBoundary (srv i) (sched i).ran start (sched i).n = some b)
    (h401 : (srv i b).status = 401) :
    fetch_movies_starting_from_page srv sched i (fuel + 1) start =
      Option.map (dictMerge (passOutput (srv i) (sched i).ran start (sched i).n))
        (fetch_movies_starting_from_page srv sched (i + 1) fuel (max 1 (b - 1))) := by
  have hrb := (passBoundary_spec hb).1
  have hfr : futureResult (srv i) (sched i).ran b = (0, (srv i b).status) :=
    futureResult_of_failure hrb.2.1 hrb.2.2
  have hclamp : (if b - 1 < 1 then 1 else b - 1) = max 1 (b - 1) := by
    split <;> omega
  simp only [fetch_movies_starting_from_page, hb, hfr, h401, ne_eq, not_true_eq_false,
    if_false, hclamp]
  cases hx : fetch_movies_starting_from_page srv sched (i + 1) fuel (max 1 (b - 1)) <;>
    simp [hx]

/-- When the boundary's real status is anything other than 401 the scan finalizes
with just this pass's successful pages: no further pass runs. -/
theorem step_finalize (srv : Nat → Nat → PageResp) (sched : Nat → PassSched)
    (i fuel start b : Nat)
    (hb : passBoundary (srv i) (sched i).ran start (sched i).n = some b)
    (hs : (srv i b).status ≠ 401) :
    fetch_movies_starting_from_page srv sched i (fuel + 1) start =
      some (passOutput (srv i) (sched i).ran start (sched i).n) := by
  have hrb := (passBoundary_spec hb).1
  have hfr : futureResult (srv i) (sched i).ran b = (0, (srv i b).status) :=
    futureResult_of_failure hrb.2.1 hrb.2.2
  simp only [fetch_movies_starting_from_page, hb, hfr, ne_eq]
  rw [if_pos hs]

/-- Against a server that answers every fetch of every pass with 401 (and
schedules that submit at least one page and never short-circuit), the scan never
finalizes, whatever recursion depth is allowed. -/
theorem always401_none (srv : Nat → Nat → PageResp) (sched : Nat → PassSched)
    (hsrv : ∀ i p, (srv i p).status = 401)
    (hn : ∀ i, 1 ≤ (sched i).n)
    (hran : ∀ i p, (sched i).ran p = true) :
    ∀ fuel i start, fetch_movies_starting_from_page srv sched i fuel start = none := by
  intro fuel
  induction fuel with
  | zero => intro i start; rfl
  | succ fuel ih =>
    intro i start
    have hmem : start ∈ passPageCount (srv i) (sched i).ran start (sched i).n := by
      rw [mem_passPageCount]
      refine ⟨mem_submittedPages.2 ⟨le_refl _, by have := hn i; omega⟩, hran i start, ?_⟩
      rw [hsrv i start]; decide
    cases hb : passBoundary (srv i) (sched i).ran start (sched i).n with
    | none =>
      have hs := List.isSome_min?_of_mem hmem
      rw [show (passPageCount (srv i) (sched i).ran start (sched i).n).min? = none from hb]
        at hs
      exact absurd hs (by decide)
    | some b =>
      rw [step_retry srv sched i fuel start b hb (hsrv i b), ih (i + 1) (max 1 (b - 1))]
      rfl

/-- A scan that finalizes does so because some pass's boundary page had a real
status other than 401. -/
theorem finalized_has_non401_boundary (srv : Nat → Nat → PageResp) (sched : Nat → PassSched) :
    ∀ fuel i start res,
      fetch_movies_starting_from_page srv sched i fuel start = some res →
      ∃ r ∈ scanTrace srv sched i fuel start,
        ∃ b, r.boundary = some b ∧ (srv r.idx b).status ≠ 401 := by
  intro fuel
  induction fuel with
  | zero =>
    intro i start res h
    simp [fetch_movies_starting_from_page] at h
  | succ fuel ih =>
    intro i start res h
    simp only [fetch_movies_starting_from_page] at h
    split at h
    · exact absurd h (by simp)
    · next b0 hb0 =>
      split at h
      · next hcond =>
        have hrb := (passBoundary_spec hb0).1
        have hfr : futureResult (srv i) (sched i).ran b0 = (0, (srv i b0).status) :=
          futureResult_of_failure hrb.2.1 hrb.2.2
        refine ⟨⟨i, start, (sched i).n, some b0⟩, ?_, b0, rfl, ?_⟩
        · simp only [scanTrace, hb0]
          rw [if_pos hcond]
          exact List.mem_singleton.2 rfl
        · rw [hfr] at hcond
          exact hcond
      · next hcond =>
        split at h
        · exact absurd h (by simp)
        · next rest hrest =>
          rcases ih (i + 1) _ rest hrest with ⟨r, hr, b, hbb, hb401⟩
          refine ⟨r, ?_, b, hbb, hb401⟩
          simp only [scanTrace, hb0]
          rw [if_neg hcond]
          exact List.mem_cons_of_mem _ hr

/-- Coverage invariant: for any pass of a scan whose starting page is at least
`start`, every page from `start` up to (but excluding) that pass's boundary lies
in the submitted range of some pass of the scan — resuming from
`max 1 (boundary - 1)` leaves no gap. -/
theorem trace_cover (srv : Nat → Nat → PageResp) (sched : Nat → PassSched) :
    ∀ fuel i start, 1 ≤ start →
      ∀ r ∈ scanTrace srv sched i fuel start, ∀ b, r.boundary = some b →
        ∀ p, start ≤ p → p < b →
          ∃ u ∈ scanTrace srv sched i fuel start,
            u.startPage ≤ p ∧ p < u.startPage + u.numSubmitted := by
  intro fuel
  induction fuel with
  | zero =>
    intro i start _ r hr
    simp [scanTrace] at hr
  | succ fuel ih =>
    intro i start hstart r hr b hbr p hp1 hp2
    rcases hb0 : passBoundary (srv i) (sched i).ran start (sched i).n with _ | b0
    · rw [show scanTrace srv sched i (fuel + 1) start =
          [⟨i, start, (sched i).n, none⟩] by simp only [scanTrace, hb0]] at hr
      rcases List.mem_singleton.1 hr with rfl
      exact absurd hbr (by simp)
    · have hb0lt : b0 < start + (sched i).n :=
        (mem_submittedPages.1 (passBoundary_spec hb0).1.1).2
      have hb0ge : start ≤ b0 :=
        (mem_submittedPages.1 (passBoundary_spec hb0).1.1).1
      by_cases hcond : (futureResult (srv i) (sched i).ran b0).2 ≠ 401
      · rw [show scanTrace srv sched i (fuel + 1) start =
            [⟨i, start, (sched i).n, some b0⟩] by
              simp only [scanTrace, hb0]; rw [if_pos hcond]] at hr ⊢
        rcases List.mem_singleton.1 hr with rfl
        have hb : b0 = b := by simpa using hbr
        exact ⟨⟨i, start, (sched i).n, some b0⟩, List.mem_singleton.2 rfl, hp1, by
          simp only []
          omega⟩
      · have htr : scanTrace srv sched i (fuel + 1) start =
            ⟨i, start, (sched i).n, some b0⟩ ::
              scanTrace srv sched (i + 1) fuel (if b0 - 1 < 1 then 1 else b0 - 1) := by
          simp only [scanTrace, hb0]; rw [if_neg hcond]
        rw [htr] at hr ⊢
        have hcover0 : p < b0 →
            ∃ u ∈ (⟨i, start, (sched i).n, some b0⟩ ::
                scanTrace srv sched (i + 1) fuel (if b0 - 1 < 1 then 1 else b0 - 1)),
              u.startPage ≤ p ∧ p < u.startPage + u.numSubmitted := by
          intro hplt
          exact ⟨⟨i, start, (sched i).n, some b0⟩, List.mem_cons_self _ _, hp1, by
            simp only []
            omega⟩
        rcases List.mem_cons.1 hr with rfl | hr2
        · have hb : b0 = b := by simpa using hbr
          subst hb
          exact hcover0 hp2
        · by_cases hplt : p < b0
          · exact hcover0 hplt
          · have hresume : 1 ≤ (if b0 - 1 < 1 then 1 else b0 - 1) := by split <;> omega
            have hple : (if b0 - 1 < 1 then 1 else b0 - 1) ≤ p := by split <;> omega
            rcases ih (i + 1) _ hresume r hr2 b hbr p hple hp2 with ⟨u, hu, hu1, hu2⟩
            exact ⟨u, List.mem_cons_of_mem _ hu, hu1, hu2⟩

/-! Claim theorems. -/

/-- C1: the claim states that for a year whose pages 1..k answer Success and
whose later pages answer EndOfData, the finalized result set is exactly pages
1..k and the total is the sum of their counts.  The code violates this: with
Scenario A's data (k = 1, page 1 has count 1, page 2 answers 404) there is an
interleaving of the thread pool — page 1's worker is preempted before its
`len(pageCount) > 0` check until page 2's 404 has been appended — in which page
1's fetch short-circuits to the sentinel `(0, 401)`, is excluded from the output
dictionary, and the 404 boundary finalizes the scan: the result set is empty and
the total is 0 instead of 1.  The single-worker interleaving of the same data
gives the claimed values. -/
theorem C1_race_drops_page_before_boundary :
    fetch_movies_starting_from_page server1894 schedRace 0 1 1 = some [] ∧
    fetch_movies_by_year server1894 schedRace 1 = some 0 ∧
    fetch_movies_by_year server1894 schedSeq 1 = some 1 := by
  decide

/-- C2: for every completed scanning pass, the boundary used by the
retry-or-finalize decision (`passBoundary`, i.e. `min(pageCount)` taken over the
list in whatever completion order `l` it was filled in) is the minimum page
number among all outcomes of the pass whose real fetch returned a non-Success
status — including fetches that completed after the first failure was observed,
since every really-run failing page of the pass is in `pageCount` regardless of
completion time, and the minimum is completion-order invariant. -/
theorem C2_boundary_is_min_nonsuccess_page (srv : Nat → PageResp) (ran : Nat → Bool)
    (start n b : Nat) (l : List Nat)
    (hperm : l.Perm (passPageCount srv ran start n)) (hmin : l.min? = some b) :
    passBoundary srv ran start n = some b ∧
    (b ∈ submittedPages start n ∧ ran b = true ∧ (srv b).status ≠ 200) ∧
    ∀ p ∈ submittedPages start n, ran p = true → (srv p).status ≠ 200 → b ≤ p := by
  have h1 : passBoundary srv ran start n = some b :=
    (min_eq_of_perm hperm).symm.trans hmin
  exact ⟨h1, (passBoundary_spec h1).1, (passBoundary_spec h1).2⟩

theorem C2_boundary_witness :
    passBoundary (server1894 0) (fun _ => true) 1 3 = some 2 ∧ 2 ≤ 3 := by
  have hperm : [3, 2].Perm (passPageCount (server1894 0) (fun _ => true) 1 3) := by
    have he : passPageCount (server1894 0) (fun _ => true) 1 3 = [2, 3] := by decide
    rw [he]
    exact List.Perm.swap 2 3 []
  have h := C2_boundary_is_min_nonsuccess_page (server1894 0) (fun _ => true) 1 3 2 [3, 2]
    hperm (by decide)
  exact ⟨h.1, h.2.2 3 (by decide) rfl (by decide)⟩

/-- C3: (a) when a pass's boundary outcome has real status 401 (Unauthorized),
the scan re-authenticates (the retried pass runs at the next pass index, i.e.
under the freshly acquired token) and resumes from page `max 1 (boundary - 1)`,
merging results; (b) when the boundary outcome has any other non-Success status
the scan finalizes with exactly this pass's output and performs no further
fetches; (c) for a scan started at page 1, every page below any pass's boundary
is submitted to a fetch in some pass of the scan — no page below the boundary is
ever skipped across passes. -/
theorem C3_reauth_resume_and_coverage (srv : Nat → Nat → PageResp) (sched : Nat → PassSched) :
    (∀ i fuel start b, passBoundary (srv i) (sched i).ran start (sched i).n = some b →
        (srv i b).status = 401 →
        fetch_movies_starting_from_page srv sched i (fuel + 1) start =
          Option.map (dictMerge (passOutput (srv i) (sched i).ran start (sched i).n))
            (fetch_movies_starting_from_page srv sched (i + 1) fuel (max 1 (b - 1)))) ∧
    (∀ i fuel start b, passBoundary (srv i) (sched i).ran start (sched i).n = some b →
        (srv i b).status ≠ 401 →
        fetch_movies_starting_from_page srv sched i (fuel + 1) start =
          some (passOutput (srv i) (sched i).ran start (sched i).n)) ∧
    (∀ fuel i, ∀ r ∈ scanTrace srv sched i fuel 1, ∀ b, r.boundary = some b →
        ∀ p, 1 ≤ p → p < b →
          ∃ u ∈ scanTrace srv sched i fuel 1,
            u.startPage ≤ p ∧ p < u.startPage + u.numSubmitted) :=
  ⟨fun i fuel start b hb h4 => step_retry srv sched i fuel start b hb h4,
   fun i fuel start b hb h4 => step_finalize srv sched i fuel start b hb h4,
   fun fuel i => trace_cover srv sched fuel i 1 (le_refl 1)⟩

theorem C3_reauth_witness :
    fetch_movies_starting_from_page server2020 sched2020 0 2 1 =
      Option.map (dictMerge (passOutput (server2020 0) (sched2020 0).ran 1 (sched2020 0).n))
        (fetch_movies_starting_from_page server2020 sched2020 1 1 (max 1 (1 - 1))) ∧
    fetch_movies_starting_from_page server2020 sched2020 1 1 1 =
      some (passOutput (server2020 1) (sched2020 1).ran 1 (sched2020 1).n) := by
  have h := C3_reauth_resume_and_coverage server2020 sched2020
  exact ⟨h.1 0 1 1 1 (by decide) (by decide), h.2.1 1 0 1 2 (by decide) (by decide)⟩

/-- C4: the accumulated result has pairwise-distinct page numbers (so each page
appears with Success at most once); every stored entry is a Success entry, so a
Success entry always takes precedence over — indeed entirely replaces — any
non-Success outcome for the same page from an earlier pass; and assuming the
claim's own stability expectation (Success counts for a page agree across
passes), the stored count for a page equals the count of every pass that fetched
it successfully, so no prior Success is discarded in favor of a different
count. -/
theorem C4_merge_success_precedence (srv : Nat → Nat → PageResp) (sched : Nat → PassSched)
    (fuel i start : Nat) (res : List (Nat × (Nat × Nat)))
    (hstab : ∀ j k p, (srv j p).status = 200 → (srv k p).status = 200 →
      (srv j p).count = (srv k p).count)
    (h : fetch_movies_starting_from_page srv sched i fuel start = some res) :
    (res.map Prod.fst).Nodup ∧
    ∀ e ∈ res, e.2.2 = 200 ∧
      ∀ j, (srv j e.1).status = 200 → e.2.1 = (srv j e.1).count := by
  refine ⟨result_keys_nodup srv sched fuel i start res h, fun e he => ?_⟩
  rcases result_provenance srv sched fuel i start res h e he with ⟨k, hk, hv⟩
  refine ⟨by rw [hv], fun j hj => ?_⟩
  rw [hv]
  exact hstab k j e.1 hk hj

theorem C4_merge_witness :
    fetch_movies_starting_from_page server1894 schedSeq 0 1 1 = some [(1, (1, 200))] ∧
    (([(1, (1, 200))] : List (Nat × (Nat × Nat))).map Prod.fst).Nodup ∧
    ((1, (1, 200)) : Nat × (Nat × Nat)).2.2 = 200 ∧
    ((1, (1, 200)) : Nat × (Nat × Nat)).2.1 = (server1894 7 1).count := by
  have hstab : ∀ j k p, (server1894 j p).status = 200 → (server1894 k p).status = 200 →
      (server1894 j p).count = (server1894 k p).count := fun _ _ _ _ _ => rfl
  have h := C4_merge_success_precedence server1894 schedSeq 1 0 1 [(1, (1, 200))] hstab
    (by decide)
  have hm : ((1, (1, 200)) : Nat × (Nat × Nat)) ∈ [(1, (1, 200))] := List.mem_singleton.2 rfl
  exact ⟨by decide, h.1, (h.2 _ hm).1, (h.2 _ hm).2 7 (by decide)⟩

/-- C5: for every finalized accumulated result, `fetch_movies_by_year` returns
exactly the sum of the movie counts over the entries with Success status (the
entries with non-Success status — there are none in a finalized result —
contribute nothing); the aggregation is a pure function of the finalized
result. -/
theorem C5_total_is_sum_of_success_counts (srv : Nat → Nat → PageResp)
    (sched : Nat → PassSched) (fuel : Nat) (res : List (Nat × (Nat × Nat)))
    (h : fetch_movies_starting_from_page srv sched 0 fuel 1 = some res) :
    fetch_movies_by_year srv sched fuel =
      some (((res.filter (fun e => e.2.2 == 200)).map (fun e => e.2.1)).sum) := by
  unfold fetch_movies_by_year
  rw [h, result_filter_success srv sched fuel 0 1 res h]
  rfl

theorem C5_sum_witness :
    fetch_movies_by_year server1894 schedSeq 1 =
      some (((([(1, (1, 200))] : List (Nat × (Nat × Nat))).filter
        (fun e => e.2.2 == 200)).map (fun e => e.2.1)).sum) :=
  C5_total_is_sum_of_success_counts server1894 schedSeq 1 [(1, (1, 200))] (by decide)

/-- C6: the claim states that concurrency limits 1 and 200 yield identical
totals on the same fixed dataset.  The code violates this: on Scenario A's data
the single-worker interleaving (fetches complete in submission order) yields
total 1, while an interleaving requiring at least two concurrent workers — page
1 short-circuits after page 2's failure lands first — yields total 0. -/
theorem C6_concurrency_changes_total :
    fetch_movies_by_year server1894 schedSeq 1 = some 1 ∧
    fetch_movies_by_year server1894 schedRace 1 = some 0 ∧
    (some 1 : Option Nat) ≠ some 0 := by
  decide

/-- C7: the reauthentication-and-resume mechanism has no retry ceiling: against
a server that answers every fetch of every pass with 401 (reauthentication keeps
"succeeding" in that each pass runs under a fresh token), the scan never
finalizes whatever recursion depth is allowed; and a scan that does finalize
does so only because some pass's boundary outcome had a status other than
401. -/
theorem C7_unbounded_retry (srv : Nat → Nat → PageResp) (sched : Nat → PassSched) :
    ((∀ i p, (srv i p).status = 401) → (∀ i, 1 ≤ (sched i).n) →
      (∀ i p, (sched i).ran p = true) →
      ∀ fuel i start, fetch_movies_starting_from_page srv sched i fuel start = none) ∧
    (∀ fuel i start res,
      fetch_movies_starting_from_page srv sched i fuel start = some res →
      ∃ r ∈ scanTrace srv sched i fuel start,
        ∃ b, r.boundary = some b ∧ (srv r.idx b).status ≠ 401) :=
  ⟨always401_none srv sched, finalized_has_non401_boundary srv sched⟩

theorem C7_retry_witness :
    fetch_movies_starting_from_page (fun _ _ => ⟨0, 401⟩) (fun _ => ⟨1, fun _ => true⟩)
      0 5 1 = none ∧
    ∃ r ∈ scanTrace server1894 schedSeq 0 1 1,
      ∃ b, r.boundary = some b ∧ (server1894 r.idx b).status ≠ 401 := by
  have h1 := (C7_unbounded_retry (fun _ _ => ⟨0, 401⟩) (fun _ => ⟨1, fun _ => true⟩)).1
    (fun _ _ => rfl) (fun _ => le_refl 1) (fun _ _ => rfl) 5 0 1
  have h2 := (C7_unbounded_retry server1894 schedSeq).2 1 0 1 [(1, (1, 200))] (by decide)
  exact ⟨h1, h2⟩

/-- C8: if the authentication endpoint answers with any non-200 status,
`authenticate` returns `none` and `main`'s authentication step reports a fatal
failure to the caller (a raised `PermissionError`; structurally there is no
retry — `main` calls `authenticate` exactly once); if it answers 200 with a
body containing a bearer token string, `authenticate` returns that token. -/
theorem C8_auth_token_handling (r : AuthResponse) :
    (r.status ≠ 200 → authenticate r = none ∧
      mainAuthStep r =
        Except.error "Authentication failed. Username or password incorrect.") ∧
    (∀ t, r.status = 200 → r.bearer = some t → authenticate r = some t) := by
  constructor
  · intro h
    have ha : authenticate r = none := by
      unfold authenticate
      rw [if_neg (by simpa using h)]
    refine ⟨ha, ?_⟩
    unfold mainAuthStep
    rw [ha]
    rfl
  · intro t h hb
    unfold authenticate
    simp [h, hb]

theorem C8_auth_witness :
    authenticate ⟨403, some "tok"⟩ = none ∧
    mainAuthStep ⟨403, some "tok"⟩ =
      Except.error "Authentication failed. Username or password incorrect." ∧
    authenticate ⟨200, some "tok"⟩ = some "tok" := by
  have h1 := (C8_auth_token_handling ⟨403, some "tok"⟩).1 (by decide)
  have h2 := (C8_auth_token_handling ⟨200, some "tok"⟩).2 "tok" rfl rfl
  exact ⟨h1.1, h1.2, h2⟩

/-- C9: every entry of the dictionary returned by
`fetch_movies_starting_from_page` — hence every entry the year total sums over —
has status 200; non-Success outcomes are filtered out at the end of each pass
and are never carried in the accumulated result. -/
theorem C9_result_entries_all_success (srv : Nat → Nat → PageResp) (sched : Nat → PassSched)
    (fuel i start : Nat) (res : List (Nat × (Nat × Nat)))
    (h : fetch_movies_starting_from_page srv sched i fuel start = some res) :
    ∀ e ∈ res, e.2.2 = 200 :=
  result_status srv sched fuel i start res h

theorem C9_entries_witness : ((1, (1, 200)) : Nat × (Nat × Nat)).2.2 = 200 :=
  C9_result_entries_all_success server1894 schedSeq 1 0 1 [(1, (1, 200))] (by decide)
    (1, (1, 200)) (List.mem_singleton.2 rfl)

/-- C10: a fetch that starts after some page of the pass has already recorded a
failure performs no network request — its result `((0, 401), false)` does not
depend on the server's response — and returns count 0 with the sentinel non-200
status 401; such a short-circuited page is never appended to `pageCount`, is
never the pass's boundary (so it never triggers reauthentication, which is
decided only by the boundary page's real status), and never appears in the
pass's returned result. -/
theorem C10_short_circuit_inert (srv : Nat → PageResp) (ran : Nat → Bool)
    (start n p b : Nat) (resp : PageResp) (hp : ran p = false) :
    fetch_movies_in_page true resp = ((0, 401), false) ∧
    p ∉ passPageCount srv ran start n ∧
    (passBoundary srv ran start n = some b → ran b = true ∧ p ≠ b) ∧
    p ∉ (passOutput srv ran start n).map Prod.fst := by
  refine ⟨rfl, ?_, ?_, ?_⟩
  · intro hmem
    rcases mem_passPageCount.1 hmem with ⟨_, hr, _⟩
    rw [hp] at hr
    exact absurd hr (by decide)
  · intro hb
    have hr := (passBoundary_spec hb).1.2.1
    refine ⟨hr, fun hpb => ?_⟩
    rw [← hpb] at hr
    rw [hp] at hr
    exact absurd hr (by decide)
  · intro hmem
    rcases List.mem_map.1 hmem with ⟨e, he, hke⟩
    rcases mem_passOutput.1 he with ⟨_, hr, _, _⟩
    rw [hke] at hr
    rw [hp] at hr
    exact absurd hr (by decide)

theorem C10_short_circuit_witness :
    fetch_movies_in_page true ⟨99, 200⟩ = ((0, 401), false) ∧
    1 ∉ passPageCount (server1894 0) (fun q => q != 1) 1 2 ∧
    ((fun q : Nat => q != 1) 2 = true ∧ 1 ≠ 2) ∧
    1 ∉ (passOutput (server1894 0) (fun q => q != 1) 1 2).map Prod.fst := by
  have h := C10_short_circuit_inert (server1894 0) (fun q => q != 1) 1 2 1 2 ⟨99, 200⟩
    (by decide)
  exact ⟨h.1, h.2.1, h.2.2.1 (by decide), h.2.2.2⟩

end MovieClient
